import Mathlib

/-!
Shallow embedding of `src/xmloutput.cpp` (class `XML::Output`), a minimal
XML writer.  The C++ object holds an output stream reference `mStream`, an
`int mLevel` (indentation depth), a `std::vector` of open element names
`mElements`, and a `bool mAttributes` (attribute window open).  We model the
stream as the string of bytes written so far, and each operation whose
preconditions are enforced by `assert` as an `Option`-valued function
(`none` = the assert fires, a StructuralContractViolation).  `mLevel` is an
`int` in the source, but the asserts (`mLevel > 0` before the only
decrement) keep it equal to the stack size, hence non-negative, so it is
embedded as `Nat`.  C++ `const char *` names are embedded as `String`;
a null pointer is not representable, so `assert(name)` is vacuously true.
-/

namespace XmlOut

/-- Formatting mode of `XML::Output` (xmloutput.h): `normal` or `terse`. -/
inductive Mode where
  | normal
  | terse
deriving DecidableEq

/-- State of the `XML::Output` writer, plus the bytes the external sink has
received so far (field `out`). -/
structure Output where
  mLevel : Nat
  mElements : List String
  mAttributes : Bool
  out : String
deriving DecidableEq

/-- The constructor `Output::Output`: depth 0, no open elements, no
attribute window, nothing written. -/
def Output.init : Output := ⟨0, [], false, ""⟩

/-- `Output::write` / `writeString`: append bytes to the sink. -/
def Output.write (o : Output) (s : String) : Output :=
  { o with out := o.out ++ s }

/-- One horizontal tab per depth unit, as the loop in `Output::Indent`. -/
def tabs : Nat → String
  | 0 => ""
  | n + 1 => tabs n ++ "\t"

/-- `Output::Indent`: write `mLevel` tab characters. -/
def Output.Indent (o : Output) : Output :=
  o.write (tabs o.mLevel)

/-- `sprintf` with format `%d` applied to a C `int`, as in
`Output::operator<<(int)` (line 151): decimal digits, leading `-` when
negative. -/
def fmtInt (v : Int) : String := toString v

/-- `sprintf` with format `%d` applied to an `unsigned int` argument, as in
`Output::operator<<(unsigned int)` (line 159): on every platform where
`int` and `unsigned int` are both 32 bits wide the value is reinterpreted
as a signed twos-complement `int` before decimal printing, so values of
`2 ^ 31` and above print as negative numbers. -/
def fmtUInt (v : Nat) : String :=
  let r : Nat := v % 2 ^ 32
  toString (if r < 2 ^ 31 then (r : Int) else (r : Int) - 2 ^ 32)

/-- `Output::operator<<(bool)` (line 174): the literal `True` or `False`. -/
def fmtBool (b : Bool) : String := if b then "True" else "False"

/-- The value kinds accepted by the `WriteElement` / `WriteAttr` overload
sets.  `vDouble` carries the text `sprintf "%g"` produced for it: the
source inherits the platform printf, whose exact digit output the spec
leaves environment-dependent, so the embedding treats the rendered text as
the value. -/
inductive Value where
  | vStr (s : String)
  | vInt (n : Int)
  | vUInt (n : Nat)
  | vDouble (rendered : String)
  | vBool (b : Bool)
deriving DecidableEq

/-- Dispatch of `operator<<` over the value kinds. -/
def render : Value → String
  | .vStr s => s
  | .vInt n => fmtInt n
  | .vUInt n => fmtUInt n
  | .vDouble r => r
  | .vBool b => fmtBool b

/-- `Output::BeginDocument`: emit the XML prologue.  No state is touched. -/
def Output.BeginDocument (o : Output) (version encoding : String)
    (standalone : Bool) : Output :=
  o.write ("<?xml version=\"" ++ version ++ "\" encoding=\"" ++ encoding
    ++ "\"" ++ " standalone=\"" ++ (if standalone then "yes" else "no")
    ++ "\"?>\n")

/-- `Output::EndDocument`: asserts `!mAttributes` and `mElements.empty()`;
writes nothing and changes nothing. -/
def Output.EndDocument (o : Output) : Option Output :=
  if o.mAttributes then none
  else if o.mElements.isEmpty then some o
  else none

/-- `Output::BeginElement`: asserts `!mAttributes`; indent at the current
level, increment the level, write `<name>`, newline unless terse, push the
name. -/
def Output.BeginElement (o : Output) (name : String) (mode : Mode) :
    Option Output :=
  if o.mAttributes then none
  else
    let o1 := o.Indent
    let o2 : Output := { o1 with mLevel := o1.mLevel + 1 }
    let o3 := o2.write ("<" ++ name ++ ">")
    let o4 := if mode ≠ Mode.terse then o3.write "\n" else o3
    some { o4 with mElements := o4.mElements ++ [name] }

/-- `Output::BeginElementAttrs`: as `BeginElement` but leaves the tag open
(`<name`), sets `mAttributes`. -/
def Output.BeginElementAttrs (o : Output) (name : String) : Option Output :=
  if o.mAttributes then none
  else
    let o1 := o.Indent
    let o2 : Output := { o1 with mLevel := o1.mLevel + 1 }
    let o3 := o2.write ("<" ++ name)
    some { o3 with mAttributes := true, mElements := o3.mElements ++ [name] }

/-- `Output::EndAttrs`: asserts `mAttributes`; clear it, write `>`, newline
unless terse. -/
def Output.EndAttrs (o : Output) (mode : Mode) : Option Output :=
  if o.mAttributes then
    let o1 : Output := { o with mAttributes := false }
    let o2 := o1.write ">"
    some (if mode ≠ Mode.terse then o2.write "\n" else o2)
  else none

/-- `Output::EndElement`: asserts a non-empty stack, `!mAttributes` and
`mLevel > 0`; decrement the level, indent (at the new level) unless terse,
pop the most recently pushed name and write `</name>` plus a newline. -/
def Output.EndElement (o : Output) (mode : Mode) : Option Output :=
  if o.mElements.isEmpty then none
  else if o.mAttributes then none
  else if o.mLevel = 0 then none
  else
    let o1 : Output := { o with mLevel := o.mLevel - 1 }
    let o2 := if mode ≠ Mode.terse then o1.Indent else o1
    let name := o2.mElements.getLast!
    let o3 : Output := { o2 with mElements := o2.mElements.dropLast }
    some (o3.write ("</" ++ name ++ ">" ++ "\n"))

/-- `Output::WriteElement` (all five overloads share this body):
`BeginElement(name, terse)`, stream the value, `EndElement(terse)`. -/
def Output.WriteElement (o : Output) (name : String) (v : Value) :
    Option Output :=
  (o.BeginElement name Mode.terse).bind fun o1 =>
    (o1.write (render v)).EndElement Mode.terse

/-- The composition the spec describes for `writeElement`, written from the
spec words: equivalent to `beginElement(name, terse)`, emit the formatted
value as text, `endElement(terse)`. -/
def Output.WriteElementSpec (o : Output) (name : String) (v : Value) :
    Option Output :=
  (o.BeginElement name Mode.terse).bind fun o1 =>
    (o1.write (render v)).EndElement Mode.terse

/-- `Output::WriteAttr` (all five overloads share this body): asserts
`mAttributes`; write ` name="value"`. -/
def Output.WriteAttr (o : Output) (name : String) (v : Value) :
    Option Output :=
  if o.mAttributes then
    some (o.write (" " ++ name ++ "=\"" ++ render v ++ "\""))
  else none

/-- One call of the public `XML::Output` API. -/
inductive Op where
  | beginDocument (version encoding : String) (standalone : Bool)
  | endDocument
  | beginElement (name : String) (mode : Mode)
  | beginElementAttrs (name : String)
  | endAttrs (mode : Mode)
  | endElement (mode : Mode)
  | writeElement (name : String) (v : Value)
  | writeAttr (name : String) (v : Value)

/-- Dispatch one API call on the writer state. -/
def Output.step (o : Output) : Op → Option Output
  | .beginDocument v e s => some (o.BeginDocument v e s)
  | .endDocument => o.EndDocument
  | .beginElement n m => o.BeginElement n m
  | .beginElementAttrs n => o.BeginElementAttrs n
  | .endAttrs m => o.EndAttrs m
  | .endElement m => o.EndElement m
  | .writeElement n v => o.WriteElement n v
  | .writeAttr n v => o.WriteAttr n v

/-- Run a call sequence; `none` as soon as any precondition is violated. -/
def Output.run (o : Output) : List Op → Option Output
  | [] => some o
  | op :: ops => (o.step op).bind fun o1 => o1.run ops

/-! ### Helper lemmas: closed forms and inversion of each operation -/

theorem getLastBang_concat (l : List String) (a : String) :
    (l ++ [a]).getLast! = a :=
  List.getLast!_of_getLast? (List.getLast?_concat l)

theorem BeginElement_eq (o : Output) (name : String) (mode : Mode)
    (h : o.mAttributes = false) :
    o.BeginElement name mode = some
      ⟨o.mLevel + 1, o.mElements ++ [name], false,
        o.out ++ tabs o.mLevel ++ ("<" ++ name ++ ">")
          ++ (if mode = Mode.terse then "" else "\n")⟩ := by
  cases mode <;>
    simp [Output.BeginElement, Output.Indent, Output.write, h,
      String.append_assoc, String.append_empty]

theorem BeginElementAttrs_eq (o : Output) (name : String)
    (h : o.mAttributes = false) :
    o.BeginElementAttrs name = some
      ⟨o.mLevel + 1, o.mElements ++ [name], true,
        o.out ++ tabs o.mLevel ++ ("<" ++ name)⟩ := by
  simp [Output.BeginElementAttrs, Output.Indent, Output.write, h,
    String.append_assoc, String.append_empty]

theorem EndAttrs_eq (o : Output) (mode : Mode) (h : o.mAttributes = true) :
    o.EndAttrs mode = some
      ⟨o.mLevel, o.mElements, false,
        o.out ++ ">" ++ (if mode = Mode.terse then "" else "\n")⟩ := by
  cases mode <;>
    simp [Output.EndAttrs, Output.write, h, String.append_assoc,
      String.append_empty]

theorem EndElement_eq (o : Output) (mode : Mode) (hne : o.mElements ≠ [])
    (ha : o.mAttributes = false) (hl : o.mLevel ≠ 0) :
    o.EndElement mode = some
      ⟨o.mLevel - 1, o.mElements.dropLast, false,
        o.out ++ (if mode = Mode.terse then "" else tabs (o.mLevel - 1))
          ++ ("</" ++ o.mElements.getLast! ++ ">" ++ "\n")⟩ := by
  have hE : o.mElements.isEmpty = false := List.isEmpty_eq_false.mpr hne
  cases mode <;>
    simp [Output.EndElement, Output.Indent, Output.write, hE, ha, hl,
      String.append_assoc, String.append_empty]

theorem WriteAttr_eq (o : Output) (name : String) (v : Value)
    (h : o.mAttributes = true) :
    o.WriteAttr name v = some
      ⟨o.mLevel, o.mElements, o.mAttributes,
        o.out ++ (" " ++ name ++ "=\"" ++ render v ++ "\"")⟩ := by
  simp [Output.WriteAttr, Output.write, h]

theorem WriteElement_eq (o : Output) (name : String) (v : Value)
    (h : o.mAttributes = false) :
    o.WriteElement name v = some
      ⟨o.mLevel, o.mElements, false,
        o.out ++ tabs o.mLevel ++ ("<" ++ name ++ ">") ++ render v
          ++ ("</" ++ name ++ ">" ++ "\n")⟩ := by
  rw [Output.WriteElement, BeginElement_eq o name Mode.terse h]
  rw [Option.some_bind]
  rw [Output.write]
  rw [EndElement_eq _ Mode.terse (by simp) (by simp) (by simp)]
  simp [String.append_assoc, String.append_empty, getLastBang_concat]

theorem EndDocument_some (o o' : Output) (h : o.EndDocument = some o') :
    o' = o := by
  unfold Output.EndDocument at h
  split at h
  · simp at h
  · split at h
    · simpa using h.symm
    · simp at h

theorem BeginElement_inv (o o' : Output) (name : String) (mode : Mode)
    (h : o.BeginElement name mode = some o') :
    o.mAttributes = false ∧ o' =
      ⟨o.mLevel + 1, o.mElements ++ [name], false,
        o.out ++ tabs o.mLevel ++ ("<" ++ name ++ ">")
          ++ (if mode = Mode.terse then "" else "\n")⟩ := by
  by_cases ha : o.mAttributes = true
  · rw [Output.BeginElement, if_pos ha] at h
    simp at h
  · have ha' : o.mAttributes = false := by simpa using ha
    rw [BeginElement_eq o name mode ha'] at h
    injection h with h
    exact ⟨ha', h.symm⟩

theorem BeginElementAttrs_inv (o o' : Output) (name : String)
    (h : o.BeginElementAttrs name = some o') :
    o.mAttributes = false ∧ o' =
      ⟨o.mLevel + 1, o.mElements ++ [name], true,
        o.out ++ tabs o.mLevel ++ ("<" ++ name)⟩ := by
  by_cases ha : o.mAttributes = true
  · rw [Output.BeginElementAttrs, if_pos ha] at h
    simp at h
  · have ha' : o.mAttributes = false := by simpa using ha
    rw [BeginElementAttrs_eq o name ha'] at h
    injection h with h
    exact ⟨ha', h.symm⟩

theorem EndAttrs_inv (o o' : Output) (mode : Mode)
    (h : o.EndAttrs mode = some o') :
    o.mAttributes = true ∧ o' =
      ⟨o.mLevel, o.mElements, false,
        o.out ++ ">" ++ (if mode = Mode.terse then "" else "\n")⟩ := by
  by_cases ha : o.mAttributes = true
  · rw [EndAttrs_eq o mode ha] at h
    injection h with h
    exact ⟨ha, h.symm⟩
  · rw [Output.EndAttrs, if_neg ha] at h
    simp at h

theorem EndElement_inv (o o' : Output) (mode : Mode)
    (h : o.EndElement mode = some o') :
    o.mElements ≠ [] ∧ o.mAttributes = false ∧ o.mLevel ≠ 0 ∧ o' =
      ⟨o.mLevel - 1, o.mElements.dropLast, false,
        o.out ++ (if mode = Mode.terse then "" else tabs (o.mLevel - 1))
          ++ ("</" ++ o.mElements.getLast! ++ ">" ++ "\n")⟩ := by
  by_cases hne : o.mElements = []
  · rw [Output.EndElement, if_pos (by simpa [List.isEmpty_iff] using hne)] at h
    simp at h
  · by_cases ha : o.mAttributes = true
    · rw [Output.EndElement,
        if_neg (by simp [List.isEmpty_iff, hne]), if_pos ha] at h
      simp at h
    · have ha' : o.mAttributes = false := by simpa using ha
      by_cases hl : o.mLevel = 0
      · rw [Output.EndElement, if_neg (by simp [List.isEmpty_iff, hne]),
          if_neg (by simp [ha']), if_pos hl] at h
        simp at h
      · rw [EndElement_eq o mode hne ha' hl] at h
        injection h with h
        exact ⟨hne, ha', hl, h.symm⟩

theorem WriteAttr_inv (o o' : Output) (name : String) (v : Value)
    (h : o.WriteAttr name v = some o') :
    o.mAttributes = true ∧ o' =
      ⟨o.mLevel, o.mElements, o.mAttributes,
        o.out ++ (" " ++ name ++ "=\"" ++ render v ++ "\"")⟩ := by
  by_cases ha : o.mAttributes = true
  · rw [WriteAttr_eq o name v ha] at h
    injection h with h
    exact ⟨ha, h.symm⟩
  · rw [Output.WriteAttr, if_neg ha] at h
    simp at h

theorem WriteElement_inv (o o' : Output) (name : String) (v : Value)
    (h : o.WriteElement name v = some o') :
    o.mAttributes = false ∧ o' =
      ⟨o.mLevel, o.mElements, false,
        o.out ++ tabs o.mLevel ++ ("<" ++ name ++ ">") ++ render v
          ++ ("</" ++ name ++ ">" ++ "\n")⟩ := by
  by_cases ha : o.mAttributes = true
  · rw [Output.WriteElement, Output.BeginElement, if_pos ha] at h
    simp at h
  · have ha' : o.mAttributes = false := by simpa using ha
    rw [WriteElement_eq o name v ha'] at h
    injection h with h
    exact ⟨ha', h.symm⟩

/-! ### Preservation of the stack-length / depth invariant -/

theorem step_preserves_len (o o' : Output) (op : Op)
    (h : o.step op = some o') (hinv : o.mElements.length = o.mLevel) :
    o'.mElements.length = o'.mLevel := by
  cases op with
  | beginDocument v e s =>
      simp only [Output.step, Option.some.injEq] at h
      subst h
      simpa [Output.BeginDocument, Output.write] using hinv
  | endDocument =>
      have := EndDocument_some o o' h
      subst this
      exact hinv
  | beginElement n m =>
      obtain ⟨-, rfl⟩ := BeginElement_inv o o' n m h
      simp [hinv]
  | beginElementAttrs n =>
      obtain ⟨-, rfl⟩ := BeginElementAttrs_inv o o' n h
      simp [hinv]
  | endAttrs m =>
      obtain ⟨-, rfl⟩ := EndAttrs_inv o o' m h
      simpa using hinv
  | endElement m =>
      obtain ⟨hne, -, -, rfl⟩ := EndElement_inv o o' m h
      simp [List.length_dropLast, hinv]
  | writeElement n v =>
      obtain ⟨-, rfl⟩ := WriteElement_inv o o' n v h
      simpa using hinv
  | writeAttr n v =>
      obtain ⟨-, rfl⟩ := WriteAttr_inv o o' n v h
      simpa using hinv

theorem run_preserves_len (ops : List Op) (o o' : Output)
    (h : o.run ops = some o') (hinv : o.mElements.length = o.mLevel) :
    o'.mElements.length = o'.mLevel := by
  induction ops generalizing o with
  | nil =>
      simp only [Output.run, Option.some.injEq] at h
      subst h
      exact hinv
  | cons op ops ih =>
      simp only [Output.run] at h
      cases hs : o.step op with
      | none => rw [hs] at h; simp at h
      | some o1 =>
          rw [hs, Option.some_bind] at h
          exact ih o1 h (step_preserves_len o o1 op hs hinv)

/-! ### Claims -/

/-- C1: from the initial state (depth 0, empty stack, attribute mode off),
any sequence of API calls whose preconditions all hold keeps the length of
`mElements` equal to `mLevel`; `BeginElement` and `BeginElementAttrs` each
increment the depth and push exactly one name, `EndElement` decrements the
depth and pops exactly one name, and every other operation changes
neither. -/
theorem C1_stack_length_equals_depth :
    (∀ (ops : List Op) (o : Output), Output.init.run ops = some o →
      o.mElements.length = o.mLevel) ∧
    (∀ (o o' : Output) (name : String) (mode : Mode),
      o.BeginElement name mode = some o' →
        o'.mElements = o.mElements ++ [name] ∧ o'.mLevel = o.mLevel + 1) ∧
    (∀ (o o' : Output) (name : String),
      o.BeginElementAttrs name = some o' →
        o'.mElements = o.mElements ++ [name] ∧ o'.mLevel = o.mLevel + 1) ∧
    (∀ (o o' : Output) (mode : Mode), o.EndElement mode = some o' →
        o.mElements ≠ [] ∧ o'.mElements = o.mElements.dropLast ∧
        o'.mLevel = o.mLevel - 1) ∧
    (∀ (o o' : Output) (mode : Mode), o.EndAttrs mode = some o' →
        o'.mElements = o.mElements ∧ o'.mLevel = o.mLevel) ∧
    (∀ (o o' : Output) (name : String) (v : Value),
      o.WriteAttr name v = some o' →
        o'.mElements = o.mElements ∧ o'.mLevel = o.mLevel) ∧
    (∀ (o o' : Output) (name : String) (v : Value),
      o.WriteElement name v = some o' →
        o'.mElements = o.mElements ∧ o'.mLevel = o.mLevel) ∧
    (∀ (o o' : Output), o.EndDocument = some o' →
        o'.mElements = o.mElements ∧ o'.mLevel = o.mLevel) ∧
    (∀ (o : Output) (ver enc : String) (sa : Bool),
        (o.BeginDocument ver enc sa).mElements = o.mElements ∧
        (o.BeginDocument ver enc sa).mLevel = o.mLevel) := by
  refine ⟨?_, ?_, ?_, ?_, ?_, ?_, ?_, ?_, ?_⟩
  · intro ops o h
    exact run_preserves_len ops Output.init o h rfl
  · intro o o' name mode h
    obtain ⟨-, rfl⟩ := BeginElement_inv o o' name mode h
    exact ⟨rfl, rfl⟩
  · intro o o' name h
    obtain ⟨-, rfl⟩ := BeginElementAttrs_inv o o' name h
    exact ⟨rfl, rfl⟩
  · intro o o' mode h
    obtain ⟨hne, -, -, rfl⟩ := EndElement_inv o o' mode h
    exact ⟨hne, rfl, rfl⟩
  · intro o o' mode h
    obtain ⟨-, rfl⟩ := EndAttrs_inv o o' mode h
    exact ⟨rfl, rfl⟩
  · intro o o' name v h
    obtain ⟨-, rfl⟩ := WriteAttr_inv o o' name v h
    exact ⟨rfl, rfl⟩
  · intro o o' name v h
    obtain ⟨-, rfl⟩ := WriteElement_inv o o' name v h
    exact ⟨rfl, rfl⟩
  · intro o o' h
    have := EndDocument_some o o' h
    subst this
    exact ⟨rfl, rfl⟩
  · intro o ver enc sa
    exact ⟨rfl, rfl⟩

/-- Witness for C1: one begin at the initial state reaches a state whose
stack length equals its depth. -/
theorem C1_stack_length_equals_depth_witness :
    (Output.mk 1 ["a"] false "<a>\n").mElements.length
      = (Output.mk 1 ["a"] false "<a>\n").mLevel :=
  C1_stack_length_equals_depth.1 [Op.beginElement "a" Mode.normal]
    ⟨1, ["a"], false, "<a>\n"⟩ (by decide)

/-- C2: the scenario beginElement root normal, writeElement child 5,
endElement normal, endDocument violates no precondition and emits exactly
the expected bytes. -/
theorem C2_scenario_root_child :
    (Output.run Output.init
      [Op.beginElement "root" Mode.normal,
       Op.writeElement "child" (Value.vInt 5),
       Op.endElement Mode.normal,
       Op.endDocument]).map Output.out
      = some "<root>\n\t<child>5</child>\n</root>\n" := by
  rfl

/-- C3: EndDocument signals a violation exactly when the stack is
non-empty or the attribute window is open; when it succeeds it writes
nothing and leaves the state unchanged. -/
theorem C3_endDocument_iff_complete :
    ∀ o : Output,
      (o.EndDocument = none ↔ o.mElements ≠ [] ∨ o.mAttributes = true) ∧
      (o.EndDocument ≠ none → o.EndDocument = some o) := by
  intro o
  by_cases ha : o.mAttributes = true
  · exact ⟨by simp [Output.EndDocument, ha], by simp [Output.EndDocument, ha]⟩
  · have ha' : o.mAttributes = false := by simpa using ha
    by_cases hne : o.mElements = []
    · exact ⟨by simp [Output.EndDocument, ha', hne],
        by simp [Output.EndDocument, ha', hne]⟩
    · exact ⟨by simp [Output.EndDocument, ha', List.isEmpty_iff, hne],
        by simp [Output.EndDocument, ha', List.isEmpty_iff, hne]⟩

/-- Witness for C3: with one open element EndDocument fails; at the initial
state it succeeds and returns the state unchanged. -/
theorem C3_endDocument_iff_complete_witness :
    (Output.mk 1 ["a"] false "x").EndDocument = none ∧
    Output.init.EndDocument = some Output.init :=
  ⟨(C3_endDocument_iff_complete ⟨1, ["a"], false, "x"⟩).1.mpr
      (Or.inl (by decide)),
   (C3_endDocument_iff_complete Output.init).2 (by decide)⟩

/-- C4: the scenario BeginElementAttrs item, WriteAttr id 7, EndAttrs
terse, EndElement terse violates no precondition and emits exactly the
expected bytes. -/
theorem C4_scenario_item_attr :
    (Output.run Output.init
      [Op.beginElementAttrs "item",
       Op.writeAttr "id" (Value.vInt 7),
       Op.endAttrs Mode.terse,
       Op.endElement Mode.terse]).map Output.out
      = some "<item id=\"7\"></item>\n" := by
  rfl

/-- C5: for every name, value kind and state, WriteElement equals the
spec composition beginElement terse, emit formatted value, endElement
terse; under beginElement's precondition (attribute mode off) it
succeeds. -/
theorem C5_writeElement_refines_composition :
    ∀ (o : Output) (name : String) (v : Value),
      o.WriteElement name v = o.WriteElementSpec name v ∧
      (o.mAttributes = false → (o.WriteElement name v).isSome = true) := by
  intro o name v
  refine ⟨rfl, fun h => ?_⟩
  rw [WriteElement_eq o name v h]
  rfl

/-- Witness for C5: at the initial state with an integer value the two
computations agree and succeed. -/
theorem C5_writeElement_refines_composition_witness :
    (Output.init.WriteElement "n" (Value.vInt 5)
      = Output.init.WriteElementSpec "n" (Value.vInt 5)) ∧
    (Output.init.WriteElement "n" (Value.vInt 5)).isSome = true :=
  ⟨(C5_writeElement_refines_composition Output.init "n" (Value.vInt 5)).1,
   (C5_writeElement_refines_composition Output.init "n" (Value.vInt 5)).2
     rfl⟩

/-- C6: every element open emits exactly depth-many tabs immediately
before the tag in both modes; terse suppresses only the post-open newline
and the pre-close indentation; EndElement always ends with a newline. -/
theorem C6_indentation_discipline :
    (∀ (o o' : Output) (name : String) (mode : Mode),
      o.BeginElement name mode = some o' →
        o'.out = o.out ++ tabs o.mLevel ++ ("<" ++ name ++ ">")
          ++ (if mode = Mode.terse then "" else "\n")) ∧
    (∀ (o o' : Output) (name : String),
      o.BeginElementAttrs name = some o' →
        o'.out = o.out ++ tabs o.mLevel ++ ("<" ++ name)) ∧
    (∀ (o o' : Output) (mode : Mode),
      o.EndElement mode = some o' →
        o'.out = o.out
          ++ (if mode = Mode.terse then "" else tabs (o.mLevel - 1))
          ++ ("</" ++ o.mElements.getLast! ++ ">" ++ "\n")) := by
  refine ⟨?_, ?_, ?_⟩
  · intro o o' name mode h
    obtain ⟨-, rfl⟩ := BeginElement_inv o o' name mode h
    rfl
  · intro o o' name h
    obtain ⟨-, rfl⟩ := BeginElementAttrs_inv o o' name h
    rfl
  · intro o o' mode h
    obtain ⟨-, -, -, rfl⟩ := EndElement_inv o o' mode h
    rfl

/-- Witness for C6: a terse open at depth one emits exactly one tab and no
newline. -/
theorem C6_indentation_discipline_witness :
    (Output.mk 1 ["r"] false "").out ++ tabs 1 ++ ("<" ++ "a" ++ ">")
      ++ (if Mode.terse = Mode.terse then "" else "\n") = "\t<a>" :=
  ((C6_indentation_discipline.1 ⟨1, ["r"], false, ""⟩
    ⟨2, ["r", "a"], false, "\t<a>"⟩ "a" Mode.terse (by decide)).symm)

/-- C7: WriteAttr raises a StructuralContractViolation exactly when the
attribute window is closed. -/
theorem C7_writeAttr_requires_window :
    ∀ (o : Output) (name : String) (v : Value),
      o.WriteAttr name v = none ↔ o.mAttributes = false := by
  intro o name v
  by_cases ha : o.mAttributes = true
  · rw [WriteAttr_eq o name v ha]
    simp [ha]
  · have ha' : o.mAttributes = false := by simpa using ha
    rw [Output.WriteAttr, if_neg ha]
    simp [ha']

/-- Witness for C7: at the initial state, where the window is closed,
WriteAttr fails. -/
theorem C7_writeAttr_requires_window_witness :
    Output.init.WriteAttr "id" (Value.vInt 7) = none :=
  (C7_writeAttr_requires_window Output.init "id" (Value.vInt 7)).mpr rfl

/-- C8: evaluation at the failing input of the unsigned overload, which
formats with the signed conversion `%d`: the unsigned value `2 ^ 31`
renders as `-2147483648`, not as its unsigned decimal representation. -/
theorem C8_unsigned_formats_as_signed :
    fmtUInt 2147483648 = "-2147483648" ∧
    fmtUInt 2147483648 ≠ "2147483648" ∧
    (Output.run Output.init
      [Op.writeElement "n" (Value.vUInt 2147483648)]).map Output.out
      = some "<n>-2147483648</n>\n" :=
  ⟨rfl, by decide, rfl⟩

/-- C9: integer `-42` renders as `-42`, booleans render as the literals
`True` and `False`, as element text and as attribute values. -/
theorem C9_literal_renderings :
    fmtInt (-42) = "-42" ∧ fmtBool true = "True" ∧ fmtBool false = "False" ∧
    (Output.run Output.init
      [Op.writeElement "i" (Value.vInt (-42))]).map Output.out
      = some "<i>-42</i>\n" ∧
    (Output.run Output.init
      [Op.writeElement "b" (Value.vBool true)]).map Output.out
      = some "<b>True</b>\n" ∧
    (Output.run Output.init
      [Op.writeElement "c" (Value.vBool false)]).map Output.out
      = some "<c>False</c>\n" ∧
    (Output.run Output.init
      [Op.beginElementAttrs "e",
       Op.writeAttr "a" (Value.vInt (-42)),
       Op.writeAttr "t" (Value.vBool true),
       Op.endAttrs Mode.terse,
       Op.endElement Mode.terse]).map Output.out
      = some "<e a=\"-42\" t=\"True\"></e>\n" :=
  ⟨rfl, rfl, rfl, rfl, rfl, rfl, rfl⟩

/-- C10: whenever the attribute window is open, WriteAttr succeeds and
leaves depth, the open-element stack and the attribute flag unchanged. -/
theorem C10_writeAttr_frame :
    ∀ (o : Output) (name : String) (v : Value), o.mAttributes = true →
      (o.WriteAttr name v).isSome = true ∧
      (o.WriteAttr name v).map Output.mLevel = some o.mLevel ∧
      (o.WriteAttr name v).map Output.mElements = some o.mElements ∧
      (o.WriteAttr name v).map Output.mAttributes = some o.mAttributes := by
  intro o name v h
  rw [WriteAttr_eq o name v h]
  exact ⟨rfl, rfl, rfl, rfl⟩

/-- Witness for C10: a concrete state with the window open keeps its
depth, stack and flag across an attribute write. -/
theorem C10_writeAttr_frame_witness :
    ((Output.mk 1 ["a"] true "").WriteAttr "id" (Value.vInt 7)).isSome
        = true ∧
    ((Output.mk 1 ["a"] true "").WriteAttr "id" (Value.vInt 7)).map
        Output.mLevel = some 1 ∧
    ((Output.mk 1 ["a"] true "").WriteAttr "id" (Value.vInt 7)).map
        Output.mElements = some ["a"] ∧
    ((Output.mk 1 ["a"] true "").WriteAttr "id" (Value.vInt 7)).map
        Output.mAttributes = some true :=
  C10_writeAttr_frame ⟨1, ["a"], true, ""⟩ "id" (Value.vInt 7) rfl

end XmlOut
